import Mathlib

/-!
Verification of the Engram memory-lifecycle engines (ranking, consolidation,
forgetting) against their natural-language specification.

The Python sources are shallowly embedded: provider similarity scores and
timestamps that the code only compares are modelled as rationals, quantities
entering the `exp`-based recency computation are modelled as reals, the
SQLAlchemy session is modelled as an explicit list of records, and every call
into the vector index or the relational store is recorded in an explicit
effect trace.  Timestamps handed to the ranking engine are modelled as the
number of days separating them from the evaluation instant (`none` stands for
a missing or unparseable value, which `datetime.fromisoformat` turns into the
caught-exception path).
-/

namespace Engram

/-! ## Ranking engine (engram/core/retrieval.py) -/

/-- Clamp a real to the interval `[0, 1]`, as `max(0.0, min(1.0, x))`. -/
noncomputable def clamp01 (x : ℝ) : ℝ := max 0 (min 1 x)

/-- Ranking weights and recency constant read from settings at engine
construction (`RetrievalEngine.__init__`). -/
structure RankConfig where
  alpha : ℝ
  beta : ℝ
  gamma : ℝ
  delta : ℝ
  tauDays : ℝ

/-- Documented defaults from `engram/utils/config.py`:
`RANK_ALPHA=0.70`, `RANK_BETA=0.20`, `RANK_GAMMA=0.15`, `RANK_DELTA=0.05`,
`RECENCY_TAU_DAYS=14.0`. -/
noncomputable def defaultRankConfig : RankConfig :=
  { alpha := 7/10, beta := 2/10, gamma := 15/100, delta := 5/100, tauDays := 14 }

/-- The metadata fields of a vector hit that `_rerank_hits` consumes.
`importance` and `decayWeight` are `none` when the key is absent from the
metadata dict; the two timestamps are `none` when absent or unparseable and
otherwise carry the signed number of days between `now` and the timestamp
(`(now - timestamp).total_seconds() / (24*3600)`). -/
structure HitMeta where
  importance : Option ℝ
  lastAccessedAt : Option ℝ
  createdAt : Option ℝ
  decayWeight : Option ℝ

/-- A `VectorHit` as returned by the vector index (`engram/vectordb/base.py`):
an id, a similarity score, and the metadata bag. -/
structure VectorHit where
  id : String
  score : ℚ
  meta : HitMeta

/-- Embedding of `RetrievalEngine._calculate_recency_boost`.  The Python code
uses `last_accessed or created_at`, returns `0.0` when both are missing, and
returns `0.0` through the `except` branch when `tau_days` is zero
(`ZeroDivisionError`); otherwise it returns
`max(0.0, min(1.0, exp(-days_since / tau)))`. -/
noncomputable def calculateRecencyBoost (cfg : RankConfig)
    (lastAccessed createdAt : Option ℝ) : ℝ :=
  match lastAccessed <|> createdAt with
  | none => 0
  | some daysSince =>
      if cfg.tauDays = 0 then 0 else clamp01 (Real.exp (-daysSince / cfg.tauDays))

/-- Embedding of `RetrievalEngine._calculate_decay_penalty`:
`0.0` for a missing `created_at`, otherwise
`max(0.0, min(1.0, (age_days / 365.0) * (1.0 - decay_weight)))`. -/
noncomputable def calculateDecayPenalty (createdAt : Option ℝ) (decayWeight : ℝ) : ℝ :=
  match createdAt with
  | none => 0
  | some ageDays => clamp01 (ageDays / 365 * (1 - decayWeight))

/-- The composite score computed inside the loop of
`RetrievalEngine._rerank_hits`:
`alpha * hit.score + beta * recency_boost + gamma * importance - delta * decay_penalty`,
with `importance` defaulting to `0.5` and `decay_weight` to `1.0`. -/
noncomputable def compositeScore (cfg : RankConfig) (h : VectorHit) : ℝ :=
  let importance := h.meta.importance.getD (1/2)
  let recencyBoost := calculateRecencyBoost cfg h.meta.lastAccessedAt h.meta.createdAt
  let decayPenalty := calculateDecayPenalty h.meta.createdAt (h.meta.decayWeight.getD 1)
  cfg.alpha * (h.score : ℝ) + cfg.beta * recencyBoost +
    cfg.gamma * importance - cfg.delta * decayPenalty

/-- The hit `_rerank_hits` builds for each input hit: the clamped composite
score plus the bookkeeping fields it adds to the metadata dict. -/
structure RankedHit where
  id : String
  score : ℝ
  originalScore : ℚ
  recencyBoost : ℝ
  decayPenalty : ℝ
  compositeScore : ℝ
  meta : HitMeta

/-- One iteration of the scoring loop in `_rerank_hits`. -/
noncomputable def rerankHit (cfg : RankConfig) (h : VectorHit) : RankedHit :=
  { id := h.id
    score := clamp01 (compositeScore cfg h)
    originalScore := h.score
    recencyBoost := calculateRecencyBoost cfg h.meta.lastAccessedAt h.meta.createdAt
    decayPenalty := calculateDecayPenalty h.meta.createdAt (h.meta.decayWeight.getD 1)
    compositeScore := compositeScore cfg h
    meta := h.meta }

/-- The ordering used by `scored_hits.sort(key=lambda x: x.score, reverse=True)`:
`a` may precede `b` exactly when `a.score ≥ b.score`. -/
def scoreGE (a b : RankedHit) : Prop := b.score ≤ a.score

noncomputable instance : DecidableRel scoreGE := fun a b =>
  inferInstanceAs (Decidable (b.score ≤ a.score))

instance : IsTotal RankedHit scoreGE := ⟨fun a b => le_total b.score a.score⟩

instance : IsTrans RankedHit scoreGE := ⟨fun _ _ _ hab hbc => le_trans hbc hab⟩

/-- Embedding of `RetrievalEngine._rerank_hits`: score every hit, then sort
descending by the new score.  Python `list.sort` is stable and `reverse=True`
preserves the original order of equal keys, which is exactly the behaviour of
insertion sort under `scoreGE`. -/
noncomputable def rerankHits (cfg : RankConfig) (hits : List VectorHit) : List RankedHit :=
  List.insertionSort scoreGE (hits.map (rerankHit cfg))

/-- The response function of the vector index: the engines call
`query(vectors, top_k, namespace)` and receive one hit list per query vector. -/
def VectorIndexQuery := List (List ℚ) → Nat → String → List (List VectorHit)

/-- The I/O calls the engines make against their collaborators.  `query` is a
read of the vector index; `deactivateRecords` and `saveRecord` are the
repository mutations the specified merge step would need (the embedded code
never emits them). -/
inductive Effect
  | query (vectors : List (List ℚ)) (topK : Nat) (ns : String)
  | deactivateRecords (ids : List String)
  | saveRecord (id : String)
deriving DecidableEq

/-- Repository mutations, as opposed to reads of the vector index. -/
def Effect.isRepoMutation : Effect → Bool
  | .query _ _ _ => false
  | .deactivateRecords _ => true
  | .saveRecord _ => true

/-- Embedding of `RetrievalEngine.retrieve_memories`, returning the ranked
hits together with the trace of collaborator calls.  `top_k or
settings.default_max_memories` makes both `None` and `0` fall back to the
default `6`; the query requests `top_k * 2` candidates; an empty response (or
an empty first hit list) yields `[]`; otherwise the reranked list is truncated
to `top_k`. -/
noncomputable def retrieveMemories (cfg : RankConfig) (query : VectorIndexQuery)
    (queryVector : List ℚ) (tenantId userId : String) (topK : Option Nat) :
    List RankedHit × List Effect :=
  let k := match topK with
    | none => 6
    | some n => if n = 0 then 6 else n
  let ns := tenantId ++ ":" ++ userId
  let results := query [queryVector] (k * 2) ns
  let eff := [Effect.query [queryVector] (k * 2) ns]
  match results.head? with
  | none => ([], eff)
  | some hits =>
      if hits.isEmpty then ([], eff)
      else ((rerankHits cfg hits).take k, eff)

/-- Default `SIMILARITY_THRESHOLD` from `engram/utils/config.py`. -/
def SIMILARITY_THRESHOLD : ℚ := mkRat 92 100

/-- Default `CONSOLIDATION_THRESHOLD` from `engram/utils/config.py`. -/
def CONSOLIDATION_THRESHOLD : ℚ := mkRat 97 100

/-- Truthiness of the `exclude_id` guard: `if exclude_id and hit.id == exclude_id`
skips a hit only when `exclude_id` is a non-empty string equal to the hit id. -/
def excludedBy (excludeId : Option String) (hitId : String) : Bool :=
  match excludeId with
  | none => false
  | some e => if e = "" then false else hitId == e

/-- Embedding of `RetrievalEngine.find_similar_memories`: the threshold falls
back to the default when the argument is `None` or `0.0` (Python `or`), the
index is queried for `50` candidates, and hits are kept when their raw score
reaches the threshold and they are not the excluded id. -/
def findSimilarMemories (query : VectorIndexQuery) (memoryVector : List ℚ)
    (tenantId userId : String) (similarityThreshold : Option ℚ)
    (excludeId : Option String) : List VectorHit × List Effect :=
  let threshold := match similarityThreshold with
    | none => SIMILARITY_THRESHOLD
    | some t => if t = 0 then SIMILARITY_THRESHOLD else t
  let ns := tenantId ++ ":" ++ userId
  let results := query [memoryVector] 50 ns
  let eff := [Effect.query [memoryVector] 50 ns]
  match results.head? with
  | none => ([], eff)
  | some hits =>
      if hits.isEmpty then ([], eff)
      else (hits.filter (fun h => decide (threshold ≤ h.score) && !(excludedBy excludeId h.id)), eff)

/-! ## Consolidation engine (engram/core/consolidation.py) -/

/-- An entry of a cluster as `_find_memory_clusters` builds it:
`{"id": memory_id, "vector": vector}`. -/
structure ClusterMember where
  id : String
  vector : List ℚ
deriving DecidableEq

/-- The inner loop of `_find_memory_clusters` that extends a freshly seeded
cluster: every similar hit whose id is a key of `memory_vectors` and is not
yet in `processed_ids` joins the cluster and is marked processed. -/
def addHitsToCluster (memoryVectors : List (String × List ℚ)) :
    List VectorHit → List ClusterMember → List String →
    List ClusterMember × List String
  | [], cluster, processed => (cluster, processed)
  | h :: hs, cluster, processed =>
      match memoryVectors.lookup h.id with
      | some v =>
          if h.id ∈ processed then addHitsToCluster memoryVectors hs cluster processed
          else addHitsToCluster memoryVectors hs (cluster ++ [⟨h.id, v⟩]) (h.id :: processed)
      | none => addHitsToCluster memoryVectors hs cluster processed

/-- The outer loop of `_find_memory_clusters`, iterating the candidate map in
insertion order with the `processed_ids` set threaded through.  A seed with no
similar hits is skipped without being marked processed (the Python `continue`
fires before `processed_ids.add`); a cluster is kept only when it gathered
more than one member.  The second component collects the vector-index calls
made by `find_similar_memories`. -/
def findClustersGo (query : VectorIndexQuery) (tenantId userId : String)
    (memoryVectors : List (String × List ℚ)) :
    List (String × List ℚ) → List String →
    List (List ClusterMember) × List Effect
  | [], _ => ([], [])
  | (memoryId, vector) :: rest, processed =>
      if memoryId ∈ processed then
        findClustersGo query tenantId userId memoryVectors rest processed
      else
        let fs := findSimilarMemories query vector tenantId userId
          (some CONSOLIDATION_THRESHOLD) (some memoryId)
        if fs.1.isEmpty then
          let rec0 := findClustersGo query tenantId userId memoryVectors rest processed
          (rec0.1, fs.2 ++ rec0.2)
        else
          let seeded := addHitsToCluster memoryVectors fs.1
            [⟨memoryId, vector⟩] (memoryId :: processed)
          let rec0 := findClustersGo query tenantId userId memoryVectors rest seeded.2
          (if seeded.1.length > 1 then seeded.1 :: rec0.1 else rec0.1, fs.2 ++ rec0.2)

/-- Embedding of `ConsolidationEngine._find_memory_clusters`. -/
def findMemoryClusters (query : VectorIndexQuery) (tenantId userId : String)
    (memoryVectors : List (String × List ℚ)) :
    List (List ClusterMember) × List Effect :=
  findClustersGo query tenantId userId memoryVectors memoryVectors []

/-- The ordering used by `sorted(cluster, key=lambda x: x["id"])`. -/
def idLE (a b : ClusterMember) : Prop := a.id ≤ b.id

instance : DecidableRel idLE := fun a b =>
  decidable_of_iff (a.id.toList ≤ b.id.toList) String.le_iff_toList_le.symm

instance : IsTotal ClusterMember idLE := ⟨fun a b => le_total a.id b.id⟩

instance : IsTrans ClusterMember idLE := ⟨fun _ _ _ hab hbc => le_trans hab hbc⟩

/-- Embedding of `ConsolidationEngine._sort_cluster_by_age`: a stable
ascending sort of the cluster by id (ULIDs are time-ordered). -/
def sortClusterByAge (cluster : List ClusterMember) : List ClusterMember :=
  List.insertionSort idLE cluster

/-- The placeholder result of `ConsolidationEngine._merge_memory_content`. -/
structure MergedContent where
  targetId : String
  sourceIds : List String
  mergedText : String
  mergeCount : Nat
deriving DecidableEq

/-- Embedding of `ConsolidationEngine._merge_memory_content`.  The Python body
is an acknowledged placeholder: it logs, fetches nothing, writes nothing to
the repository, and unconditionally returns a stub dict (its comment lists the
database update and the source deletion among the steps a real implementation
would perform). -/
def mergeMemoryContent (target : ClusterMember) (sources : List ClusterMember) :
    Option MergedContent :=
  some { targetId := target.id
         sourceIds := sources.map (·.id)
         mergedText := "Merged content placeholder"
         mergeCount := sources.length + 1 }

/-- The per-cluster result dict built by `_merge_memory_cluster`; the source
keys are literally `"merged"`, `"deleted"` and `"updated"`. -/
structure MergeResult where
  merged : List (List String)
  deleted : List String
  updated : List String
deriving DecidableEq

/-- Embedding of `ConsolidationEngine._merge_memory_cluster`: clusters of
fewer than two members are rejected, the first member of the (sorted) cluster
is the target, the rest are sources, and the result records the cluster ids
under `"merged"`, the source ids under `"deleted"` and the target id under
`"updated"`.  No repository call is made. -/
def mergeMemoryCluster (cluster : List ClusterMember) : Option MergeResult :=
  if cluster.length < 2 then none
  else
    match cluster with
    | [] => none
    | target :: sources =>
        match mergeMemoryContent target sources with
        | none => none
        | some _ =>
            some { merged := [cluster.map (·.id)]
                   deleted := sources.map (·.id)
                   updated := [target.id] }

/-- The accumulated result dict of `consolidate_memories`. -/
structure ConsolidationResults where
  merged : List (List String)
  deleted : List String
  updated : List String
deriving DecidableEq

/-- The body of the `for cluster in clusters` loop of `consolidate_memories`. -/
def consolidateStep (dryRun : Bool) (acc : ConsolidationResults)
    (cluster : List ClusterMember) : ConsolidationResults :=
  if cluster.length < 2 then acc
  else
    let sortedCluster := sortClusterByAge cluster
    if dryRun then
      { acc with merged := acc.merged ++ [sortedCluster.map (·.id)] }
    else
      match mergeMemoryCluster sortedCluster with
      | none => acc
      | some r =>
          { merged := acc.merged ++ r.merged
            deleted := acc.deleted ++ r.deleted
            updated := acc.updated ++ r.updated }

/-- Embedding of `ConsolidationEngine.consolidate_memories`: an empty
candidate map short-circuits to an empty result, otherwise the clusters found
by `_find_memory_clusters` are merged (or merely recorded under `dry_run`).
The effect trace contains exactly the vector-index reads of cluster
discovery: the engine performs no repository call at all. -/
def consolidateMemories (query : VectorIndexQuery) (tenantId userId : String)
    (memoryVectors : List (String × List ℚ)) (dryRun : Bool) :
    ConsolidationResults × List Effect :=
  if memoryVectors.isEmpty then (⟨[], [], []⟩, [])
  else
    let found := findMemoryClusters query tenantId userId memoryVectors
    (found.1.foldl (consolidateStep dryRun) ⟨[], [], []⟩, found.2)

/-! ## Forgetting engine (engram/core/forgetting.py) -/

/-- A row of the `Memory` table, with the columns the forgetting engine
touches.  Timestamps are rationals on one absolute axis (larger = later). -/
structure Memory where
  id : String
  tenantId : String
  userId : String
  importance : ℚ
  createdAt : ℚ
  lastAccessedAt : ℚ
  updatedAt : ℚ
  active : Bool
  modality : String
deriving DecidableEq

/-- Settings consumed by `ForgettingEngine`: `IMPORTANCE_THRESHOLD=0.2`,
`FORGETTING_DAYS=30`, `MEMORY_RETENTION_DAYS=365`. -/
structure ForgettingConfig where
  importanceThreshold : ℚ
  forgettingDays : ℚ
  memoryRetentionDays : ℚ

def defaultForgettingConfig : ForgettingConfig :=
  { importanceThreshold := 1/5, forgettingDays := 30, memoryRetentionDays := 365 }

/-- The `user_id` guard of `forget_user_memories`: the filter is added only
`if user_id:`, so `None` and the empty string match every user. -/
def userScopeMatches (userId : Option String) (m : Memory) : Bool :=
  match userId with
  | none => true
  | some u => if u = "" then true else m.userId == u

/-- The WHERE clause of the `forget_user_memories` query: active records of
the tenant (and user, when given) with `importance < importance_threshold`
and `last_accessed_at < utcnow() - timedelta(days=forgetting_days)`. -/
def forgetMatches (cfg : ForgettingConfig) (now : ℚ) (tenantId : String)
    (userId : Option String) (m : Memory) : Bool :=
  m.tenantId == tenantId && m.active &&
    decide (m.importance < cfg.importanceThreshold) &&
    decide (m.lastAccessedAt < now - cfg.forgettingDays) &&
    userScopeMatches userId m

/-- The dict returned by the forgetting sweeps; `memoryIds` is `none` when the
empty-result branch returns a dict without the `memory_ids` key. -/
structure ForgetResult where
  memoriesForgotten : Nat
  memoryIds : Option (List String)
deriving DecidableEq

/-- Embedding of `ForgettingEngine.forget_user_memories`.  The matching rows
are collected, then a single UPDATE sets `active=False` and touches
`updated_at` on every row whose id is in the collected list, and the returned
dict reports the full count but only the first ten ids
(`memory_ids[:10]`). -/
def forgetUserMemories (cfg : ForgettingConfig) (db : List Memory) (now : ℚ)
    (tenantId : String) (userId : Option String) : List Memory × ForgetResult :=
  let toForget := db.filter (forgetMatches cfg now tenantId userId)
  if toForget.isEmpty then (db, ⟨0, none⟩)
  else
    let ids := toForget.map (·.id)
    let db2 := db.map (fun m =>
      if ids.contains m.id then { m with active := false, updatedAt := now } else m)
    (db2, ⟨toForget.length, some (ids.take 10)⟩)

/-- The WHERE clause of the `forget_old_memories` query: active records of the
tenant with `created_at < utcnow() - timedelta(days=retention_days)`. -/
def forgetOldMatches (now retentionDays : ℚ) (tenantId : String) (m : Memory) : Bool :=
  m.tenantId == tenantId && m.active && decide (m.createdAt < now - retentionDays)

/-- Embedding of `ForgettingEngine.forget_old_memories`; `retention_days`
falls back to `settings.memory_retention_days` only on `None`
(`is None` check, so an explicit `0` is kept). -/
def forgetOldMemories (cfg : ForgettingConfig) (db : List Memory) (now : ℚ)
    (tenantId : String) (retentionDays : Option ℚ) : List Memory × ForgetResult :=
  let rd := retentionDays.getD cfg.memoryRetentionDays
  let toForget := db.filter (forgetOldMatches now rd tenantId)
  if toForget.isEmpty then (db, ⟨0, none⟩)
  else
    let ids := toForget.map (·.id)
    let db2 := db.map (fun m =>
      if ids.contains m.id then { m with active := false, updatedAt := now } else m)
    (db2, ⟨toForget.length, some (ids.take 10)⟩)

/-- The counting queries of `analyze_memory_health` (lines 197-225 of
`engram/core/forgetting.py`): total active records of the scope, those below
the importance threshold, those not accessed within `forgetting_days`, and
those created more than `memory_retention_days` ago.  All four are reads. -/
def analyzeHealthCounts (cfg : ForgettingConfig) (db : List Memory) (now : ℚ)
    (tenantId : String) (userId : Option String) : Nat × Nat × Nat × Nat :=
  let scopedRows := db.filter (fun m =>
    m.tenantId == tenantId && m.active && userScopeMatches userId m)
  ( scopedRows.length,
    (scopedRows.filter (fun m => decide (m.importance < cfg.importanceThreshold))).length,
    (scopedRows.filter (fun m => decide (m.lastAccessedAt < now - cfg.forgettingDays))).length,
    (scopedRows.filter (fun m => decide (m.createdAt < now - cfg.memoryRetentionDays))).length )

/-- The runtime errors the embedded Python can raise. -/
inductive PyError
  | nameError (name : String)
deriving DecidableEq

/-- Embedding of `ForgettingEngine.analyze_memory_health`.  After the four
read-only counting queries succeed, the function evaluates `func.avg(...)`
(line 229), but the module imports only `and_` and `desc` from `sqlalchemy`
(line 6) and never binds `func`, so every call raises
`NameError: name 'func' is not defined` (re-raised by the `except` block)
before any result dict is built.  No query before the failure point writes to
the session. -/
def analyzeMemoryHealth (cfg : ForgettingConfig) (db : List Memory) (now : ℚ)
    (tenantId : String) (userId : Option String) :
    Except PyError ((Nat × Nat × Nat × Nat) × List Memory) :=
  let counts := analyzeHealthCounts cfg db now tenantId userId
  match counts with
  | _ => Except.error (PyError.nameError "func")

/-! ## Specification-side score definitions

`specRankedScore` renders the amended C1 sentence (component boosts and
penalties clamped to `[0,1]` exactly as the code clamps them);
`claimRankedScore` renders the C1 sentence as written, with the raw
`exp(−days/τ)` boost and the unclamped `(age/365)·(1−decayWeight)` penalty. -/

/-- Ranked score as the amended specification describes it: clamp to `[0,1]`
of `α·raw + β·recencyBoost + γ·importance − δ·decayPenalty`, where
`recencyBoost` is the clamp to `[0,1]` of `exp(−daysSinceReference/τ)` with
the reference taken from `lastAccessedAt` if present else `createdAt` (`0` if
both are missing), `decayPenalty` is the clamp to `[0,1]` of
`(ageInDays/365)·(1−decayWeight)` from `createdAt` (`0` if missing),
`importance` defaults to `0.5` and `decayWeight` defaults to `1.0`. -/
noncomputable def specRankedScore (cfg : RankConfig) (h : VectorHit) : ℝ :=
  let importance : ℝ := match h.meta.importance with | some i => i | none => 1/2
  let decayWeight : ℝ := match h.meta.decayWeight with | some w => w | none => 1
  let reference : Option ℝ := match h.meta.lastAccessedAt with
    | some d => some d
    | none => h.meta.createdAt
  let recencyBoost : ℝ := match reference with
    | some d => clamp01 (Real.exp (-(d / cfg.tauDays)))
    | none => 0
  let decayPenalty : ℝ := match h.meta.createdAt with
    | some age => clamp01 (age / 365 * (1 - decayWeight))
    | none => 0
  clamp01 (cfg.alpha * (h.score : ℝ) + cfg.beta * recencyBoost +
    cfg.gamma * importance - cfg.delta * decayPenalty)

/-- Ranked score exactly as claim C1 states it, with unclamped
`recencyBoost = exp(−daysSinceReference/τ)` and unclamped
`decayPenalty = (ageInDays/365)·(1−decayWeight)`. -/
noncomputable def claimRankedScore (cfg : RankConfig) (h : VectorHit) : ℝ :=
  let importance : ℝ := match h.meta.importance with | some i => i | none => 1/2
  let decayWeight : ℝ := match h.meta.decayWeight with | some w => w | none => 1
  let reference : Option ℝ := match h.meta.lastAccessedAt with
    | some d => some d
    | none => h.meta.createdAt
  let recencyBoost : ℝ := match reference with
    | some d => Real.exp (-(d / cfg.tauDays))
    | none => 0
  let decayPenalty : ℝ := match h.meta.createdAt with
    | some age => age / 365 * (1 - decayWeight)
    | none => 0
  clamp01 (cfg.alpha * (h.score : ℝ) + cfg.beta * recencyBoost +
    cfg.gamma * importance - cfg.delta * decayPenalty)

/-! ## Helper lemmas -/

lemma clamp01_nonneg (x : ℝ) : 0 ≤ clamp01 x := le_max_left 0 _

lemma clamp01_le_one (x : ℝ) : clamp01 x ≤ 1 := by
  unfold clamp01
  rcases le_total x 1 with h | h
  · exact max_le zero_le_one (min_le_left 1 x)
  · exact max_le zero_le_one (min_le_left 1 x)

lemma clamp01_mono {x y : ℝ} (h : x ≤ y) : clamp01 x ≤ clamp01 y :=
  max_le_max le_rfl (min_le_min le_rfl h)

lemma clamp01_eq_self {x : ℝ} (h0 : 0 ≤ x) (h1 : x ≤ 1) : clamp01 x = x := by
  unfold clamp01
  rw [min_eq_right h1, max_eq_right h0]

lemma clamp01_eq_one {x : ℝ} (h : 1 ≤ x) : clamp01 x = 1 := by
  unfold clamp01
  rw [min_eq_left h, max_eq_right zero_le_one]

lemma filter_orderedInsert_pos {α : Type} (r : α → α → Prop) [DecidableRel r]
    (p : α → Bool) (a : α) (l : List α) (hp : p a = true)
    (h : ∀ b, ¬ r a b → p b = false) :
    (List.orderedInsert r a l).filter p = a :: l.filter p := by
  induction l with
  | nil => simp [List.orderedInsert, hp]
  | cons b bs ih =>
      by_cases hr : r a b
      · simp [List.orderedInsert, hr, hp]
      · have hb : p b = false := h b hr
        simp [List.orderedInsert, hr, hb, ih]

lemma filter_orderedInsert_neg {α : Type} (r : α → α → Prop) [DecidableRel r]
    (p : α → Bool) (a : α) (l : List α) (hp : p a = false) :
    (List.orderedInsert r a l).filter p = l.filter p := by
  induction l with
  | nil => simp [List.orderedInsert, hp]
  | cons b bs ih =>
      by_cases hr : r a b
      · simp [List.orderedInsert, hr, hp]
      · cases hb : p b with
        | true => simp [List.orderedInsert, hr, hb, ih]
        | false => simp [List.orderedInsert, hr, hb, ih]

/-- Stability of insertion sort: a filter that distinguishes elements only up
to the sort key is unchanged by sorting, provided an element can only pass
over (`¬ r a b`) elements with a different key. -/
lemma filter_insertionSort {α : Type} (r : α → α → Prop) [DecidableRel r]
    (p : α → Bool) (hcond : ∀ a b, p a = true → ¬ r a b → p b = false)
    (l : List α) :
    (List.insertionSort r l).filter p = l.filter p := by
  induction l with
  | nil => rfl
  | cons x xs ih =>
      cases hx : p x with
      | true =>
          rw [List.insertionSort,
            filter_orderedInsert_pos r p x _ hx (fun b => hcond x b hx)]
          simp [hx, ih]
      | false =>
          rw [List.insertionSort, filter_orderedInsert_neg r p x _ hx]
          simp [hx, ih]

/-- In a list sorted descending by score, a strictly larger score sits at a
strictly smaller index. -/
lemma sorted_index_lt {l : List RankedHit} (hs : l.Sorted scoreGE)
    {i j : Fin l.length}
    (h : (l.get j).score < (l.get i).score) : i < j := by
  by_contra hij
  push_neg at hij
  rcases lt_or_eq_of_le hij with hlt | heq
  · have hrel : scoreGE (l.get j) (l.get i) := hs.rel_get_of_lt hlt
    exact absurd h (not_lt.mpr hrel)
  · rw [heq] at h
    exact lt_irrefl _ h

/-- The score of a reranked hit agrees with the amended specification formula
whenever the recency constant is nonzero. -/
lemma rerankHit_score_eq_spec (cfg : RankConfig) (h : VectorHit)
    (hτ : cfg.tauDays ≠ 0) :
    (rerankHit cfg h).score = specRankedScore cfg h := by
  obtain ⟨hid, hscore, imp, la, ca, dw⟩ := h
  simp only [rerankHit, specRankedScore, compositeScore, calculateRecencyBoost,
    calculateDecayPenalty, Option.getD, if_neg hτ]
  cases la <;> cases ca <;> cases imp <;> cases dw <;>
    simp [neg_div, if_neg hτ]

/-- C1 (amended): every hit that Rank returns carries the clamped composite
score `clamp01(α·raw + β·recencyBoost + γ·importance − δ·decayPenalty)` of the
corresponding input hit, where the recency boost and the decay penalty are
themselves clamped to `[0,1]` (boost from `lastAccessedAt` else `createdAt`,
`0` when both are missing, penalty `0` when `createdAt` is missing, importance
defaulting to `0.5` and decayWeight to `1.0`); in particular every returned
score lies in `[0,1]`. -/
theorem rank_rankedScore_formula (cfg : RankConfig) (hits : List VectorHit)
    (h' : RankedHit) (hτ : cfg.tauDays ≠ 0) (hmem : h' ∈ rerankHits cfg hits) :
    ∃ h ∈ hits, h'.id = h.id ∧ h'.score = specRankedScore cfg h ∧
      0 ≤ h'.score ∧ h'.score ≤ 1 := by
  rw [rerankHits, List.mem_insertionSort] at hmem
  obtain ⟨h, hh, rfl⟩ := List.mem_map.mp hmem
  exact ⟨h, hh, rfl, rerankHit_score_eq_spec cfg h hτ,
    clamp01_nonneg _, clamp01_le_one _⟩

/-- A hit whose metadata carries no importance, timestamps or decay weight. -/
def hitAllMissing : VectorHit := ⟨"w1", mkRat 1 2, ⟨none, none, none, none⟩⟩

/-- Witness for `rank_rankedScore_formula` at a concrete single-hit query. -/
theorem rank_rankedScore_formula_witness :
    ∃ h ∈ [hitAllMissing],
      (rerankHit defaultRankConfig hitAllMissing).id = h.id ∧
      (rerankHit defaultRankConfig hitAllMissing).score =
        specRankedScore defaultRankConfig h ∧
      0 ≤ (rerankHit defaultRankConfig hitAllMissing).score ∧
      (rerankHit defaultRankConfig hitAllMissing).score ≤ 1 :=
  rank_rankedScore_formula defaultRankConfig [hitAllMissing]
    (rerankHit defaultRankConfig hitAllMissing)
    (by norm_num [defaultRankConfig])
    (by simp [rerankHits])

/-- A ten-year-old hit with full similarity and no decay resistance. -/
def hitOldLowDecay : VectorHit := ⟨"m1", 1, ⟨none, none, some 3650, some 0⟩⟩

/-- C1 as written fails on the code: for a record created 3650 days ago with
`decayWeight = 0`, the code clamps the decay penalty `(3650/365)·1 = 10` to
`1` before weighting it, while the claim formula subtracts `δ·10`; the two
resulting scores differ by `0.45`. -/
theorem rank_rankedScore_claim_counterexample :
    (rerankHit defaultRankConfig hitOldLowDecay).score ≠
      claimRankedScore defaultRankConfig hitOldLowDecay := by
  have he0 : (0:ℝ) < Real.exp (-((1825:ℝ) / 7)) := Real.exp_pos _
  have he1 : Real.exp (-((1825:ℝ) / 7)) ≤ 1 := by
    calc Real.exp (-((1825:ℝ) / 7)) ≤ Real.exp 0 :=
          Real.exp_le_exp.mpr (by norm_num)
      _ = 1 := Real.exp_zero
  simp only [rerankHit, compositeScore, claimRankedScore, calculateRecencyBoost,
    calculateDecayPenalty, hitOldLowDecay, defaultRankConfig, Option.getD]
  norm_num [neg_div]
  rw [show clamp01 (10:ℝ) = 1 from clamp01_eq_one (by norm_num),
    clamp01_eq_self he0.le he1,
    clamp01_eq_self (by linarith) (by linarith),
    clamp01_eq_self (by linarith) (by linarith)]
  intro hcontra
  linarith

/-- C6 (amended): reranking sorts descending by rankedScore with a stable
sort (hits with equal scores keep the original provider order, expressed as
invariance of score-level filters), and Rank truncates to the effective topK
only after sorting, so the returned list has length at most topK for every
topK ≥ 1 (a topK of 0 or None falls back to the default of 6 instead). -/
theorem rank_sort_truncate (cfg : RankConfig) (hits : List VectorHit) (s : ℝ)
    (query : VectorIndexQuery) (qv : List ℚ) (tid uid : String) (k : Nat)
    (hk : 1 ≤ k) :
    (rerankHits cfg hits).Sorted scoreGE ∧
    (rerankHits cfg hits).filter (fun h => decide (h.score = s)) =
      (hits.map (rerankHit cfg)).filter (fun h => decide (h.score = s)) ∧
    (retrieveMemories cfg query qv tid uid (some k)).1 =
      (rerankHits cfg
        ((query [qv] (k * 2) (tid ++ ":" ++ uid)).head?.getD [])).take k ∧
    (retrieveMemories cfg query qv tid uid (some k)).1.length ≤ k := by
  have hk0 : k ≠ 0 := Nat.one_le_iff_ne_zero.mp hk
  have hcond : ∀ a b : RankedHit, (decide (a.score = s)) = true →
      ¬ scoreGE a b → (decide (b.score = s)) = false := by
    intro a b ha hr
    have ha' : a.score = s := of_decide_eq_true ha
    have hlt : a.score < b.score := not_le.mp hr
    exact decide_eq_false (by rw [← ha']; exact ne_of_gt hlt)
  have htrunc : (retrieveMemories cfg query qv tid uid (some k)).1 =
      (rerankHits cfg
        ((query [qv] (k * 2) (tid ++ ":" ++ uid)).head?.getD [])).take k := by
    simp only [retrieveMemories, if_neg hk0]
    cases hq : (query [qv] (k * 2) (tid ++ ":" ++ uid)).head? with
    | none => simp [hq, rerankHits, List.insertionSort]
    | some hits0 =>
        by_cases h0 : hits0.isEmpty
        · rw [List.isEmpty_iff] at h0
          simp [hq, h0, rerankHits, List.insertionSort]
        · simp [hq, h0]
  refine ⟨List.sorted_insertionSort scoreGE _,
    filter_insertionSort scoreGE _ hcond _, htrunc, ?_⟩
  rw [htrunc]
  exact List.length_take_le _ _

/-- The index response used by the C6 witness: one hit for every query. -/
def singleHitQuery : VectorIndexQuery := fun _ _ _ => [[hitAllMissing]]

/-- Witness for `rank_sort_truncate` at a concrete one-hit query with
`topK = 1`. -/
theorem rank_sort_truncate_witness :
    (rerankHits defaultRankConfig [hitAllMissing]).Sorted scoreGE ∧
    (rerankHits defaultRankConfig [hitAllMissing]).filter
        (fun h => decide (h.score = (0:ℝ))) =
      ([hitAllMissing].map (rerankHit defaultRankConfig)).filter
        (fun h => decide (h.score = (0:ℝ))) ∧
    (retrieveMemories defaultRankConfig singleHitQuery [] "t" "u" (some 1)).1 =
      (rerankHits defaultRankConfig
        ((singleHitQuery [[]] (1 * 2) ("t" ++ ":" ++ "u")).head?.getD [])).take 1 ∧
    (retrieveMemories defaultRankConfig singleHitQuery [] "t" "u" (some 1)).1.length ≤ 1 :=
  rank_sort_truncate defaultRankConfig [hitAllMissing] 0 singleHitQuery [] "t" "u" 1
    (by norm_num)

/-- C6 as written fails at `topK = 0`: Python `top_k or default` replaces `0`
by the default of 6, so a query with `topK = 0` still returns a hit and the
promised bound `length ≤ topK` is violated. -/
theorem rank_topK_zero_counterexample :
    (retrieveMemories defaultRankConfig singleHitQuery [] "t" "u" (some 0)).1.length = 1 ∧
    ¬ (retrieveMemories defaultRankConfig singleHitQuery [] "t" "u" (some 0)).1.length ≤ 0 := by
  have h : (retrieveMemories defaultRankConfig singleHitQuery [] "t" "u" (some 0)).1.length = 1 := by
    simp [retrieveMemories, singleHitQuery, rerankHits, List.insertionSort,
      List.orderedInsert, hitAllMissing]
  exact ⟨h, by rw [h]; norm_num⟩

/-- Recency boost is antitone in the number of days since last access, for a
positive recency constant. -/
lemma recency_boost_antitone (cfg : RankConfig) (hτ : 0 < cfg.tauDays)
    {d1 d2 : ℝ} (hd : d1 ≤ d2) (ca : Option ℝ) :
    calculateRecencyBoost cfg (some d2) ca ≤ calculateRecencyBoost cfg (some d1) ca := by
  simp only [calculateRecencyBoost, Option.some_orElse, if_neg (ne_of_gt hτ)]
  apply clamp01_mono
  apply Real.exp_le_exp.mpr
  rw [neg_div, neg_div]
  exact neg_le_neg ((div_le_div_iff_of_pos_right hτ).mpr hd)

/-- C7 (amended): for two hits identical in rawSimilarity, importance,
createdAt and decayWeight and differing only in lastAccessedAt, the more
recently accessed hit never receives a lower rankedScore; and whenever the
two clamped scores actually differ, the more recent hit occupies a strictly
smaller index in any reranked list (with equal clamped scores the stable sort
keeps the provider order, so it can rank lower only on such ties). -/
theorem rank_recency_monotonic (cfg : RankConfig) (h1 h2 : VectorHit)
    (hβ : 0 ≤ cfg.beta) (hτ : 0 < cfg.tauDays)
    (hraw : h1.score = h2.score)
    (himp : h1.meta.importance = h2.meta.importance)
    (hca : h1.meta.createdAt = h2.meta.createdAt)
    (hdw : h1.meta.decayWeight = h2.meta.decayWeight)
    (d1 d2 : ℝ) (hla1 : h1.meta.lastAccessedAt = some d1)
    (hla2 : h2.meta.lastAccessedAt = some d2) (hd : d1 ≤ d2) :
    (rerankHit cfg h2).score ≤ (rerankHit cfg h1).score ∧
    ∀ (hits : List VectorHit) (i j : Fin (rerankHits cfg hits).length),
      (rerankHits cfg hits).get i = rerankHit cfg h1 →
      (rerankHits cfg hits).get j = rerankHit cfg h2 →
      (rerankHit cfg h2).score < (rerankHit cfg h1).score →
      i < j := by
  have hcomp : compositeScore cfg h2 ≤ compositeScore cfg h1 := by
    unfold compositeScore
    rw [hraw, himp, hca, hdw, hla1, hla2]
    have hb := recency_boost_antitone cfg hτ hd h2.meta.createdAt
    have := mul_le_mul_of_nonneg_left hb hβ
    linarith
  refine ⟨clamp01_mono hcomp, ?_⟩
  intro hits i j hi hj hlt
  have hs : (rerankHits cfg hits).Sorted scoreGE :=
    List.sorted_insertionSort scoreGE _
  apply sorted_index_lt hs
  rw [hi, hj]
  exact hlt

/-- A hit last accessed one day ago. -/
def hitAccessedRecently : VectorHit := ⟨"r", 1/2, ⟨none, some 1, none, none⟩⟩

/-- The same hit, last accessed two days ago. -/
def hitAccessedEarlier : VectorHit := ⟨"s", 1/2, ⟨none, some 2, none, none⟩⟩

/-- Witness for `rank_recency_monotonic` on two concrete hits accessed one
and two days ago. -/
theorem rank_recency_monotonic_witness :
    (rerankHit defaultRankConfig hitAccessedEarlier).score ≤
      (rerankHit defaultRankConfig hitAccessedRecently).score ∧
    ∀ (hits : List VectorHit)
      (i j : Fin (rerankHits defaultRankConfig hits).length),
      (rerankHits defaultRankConfig hits).get i =
        rerankHit defaultRankConfig hitAccessedRecently →
      (rerankHits defaultRankConfig hits).get j =
        rerankHit defaultRankConfig hitAccessedEarlier →
      (rerankHit defaultRankConfig hitAccessedEarlier).score <
        (rerankHit defaultRankConfig hitAccessedRecently).score →
      i < j :=
  rank_recency_monotonic defaultRankConfig hitAccessedRecently hitAccessedEarlier
    (by norm_num [defaultRankConfig]) (by norm_num [defaultRankConfig])
    rfl rfl rfl rfl 1 2 rfl rfl (by norm_num)

/-- A fully relevant, fully important hit last accessed 0.1 days ago, placed
first by the provider. -/
noncomputable def hitLessRecent : VectorHit := ⟨"less", 1, ⟨some 1, some (1/10), none, none⟩⟩

/-- The same hit accessed right now, placed second by the provider. -/
def hitMoreRecent : VectorHit := ⟨"more", 1, ⟨some 1, some 0, none, none⟩⟩

/-- C7 as written fails on the code: both hits clamp to a rankedScore of 1,
the stable sort keeps the provider order, and the more recently accessed hit
ends up at the lower rank (index 1 behind index 0). -/
theorem rank_recency_rank_counterexample :
    (rerankHit defaultRankConfig hitLessRecent).score = 1 ∧
    (rerankHit defaultRankConfig hitMoreRecent).score = 1 ∧
    (rerankHits defaultRankConfig [hitLessRecent, hitMoreRecent]).map (·.id) =
      ["less", "more"] := by
  have hexp1 : (139:ℝ)/140 ≤ Real.exp (-(1/140)) := by
    have h := Real.add_one_le_exp (-(1/140) : ℝ)
    linarith
  have hexp2 : Real.exp (-(1/140) : ℝ) ≤ 1 := by
    calc Real.exp (-(1/140) : ℝ) ≤ Real.exp 0 := Real.exp_le_exp.mpr (by norm_num)
      _ = 1 := Real.exp_zero
  have hless : (rerankHit defaultRankConfig hitLessRecent).score = 1 := by
    simp only [rerankHit, compositeScore, calculateRecencyBoost,
      calculateDecayPenalty, hitLessRecent, defaultRankConfig, Option.getD,
      Option.some_orElse]
    norm_num
    rw [clamp01_eq_self (Real.exp_pos _).le hexp2]
    exact clamp01_eq_one (by linarith)
  have hmore : (rerankHit defaultRankConfig hitMoreRecent).score = 1 := by
    simp only [rerankHit, compositeScore, calculateRecencyBoost,
      calculateDecayPenalty, hitMoreRecent, defaultRankConfig, Option.getD,
      Option.some_orElse]
    norm_num [Real.exp_zero]
    rw [show clamp01 (1:ℝ) = 1 from clamp01_eq_one le_rfl]
    exact clamp01_eq_one (by norm_num)
  refine ⟨hless, hmore, ?_⟩
  rw [rerankHits]
  simp only [List.map_cons, List.map_nil, List.insertionSort, List.orderedInsert]
  rw [if_pos (show scoreGE (rerankHit defaultRankConfig hitLessRecent)
      (rerankHit defaultRankConfig hitMoreRecent) by
    show (rerankHit defaultRankConfig hitMoreRecent).score ≤
      (rerankHit defaultRankConfig hitLessRecent).score
    rw [hless, hmore])]
  simp [rerankHit, hitLessRecent, hitMoreRecent]

/-! ## Consolidation claims -/

/-- The effect trace of `find_similar_memories` is exactly one vector-index
query, whatever the response. -/
lemma findSimilarMemories_effects (query : VectorIndexQuery) (v : List ℚ)
    (tid uid : String) (st : Option ℚ) (ex : Option String) :
    (findSimilarMemories query v tid uid st ex).2 =
      [Effect.query [v] 50 (tid ++ ":" ++ uid)] := by
  simp only [findSimilarMemories]
  cases (query [v] 50 (tid ++ ":" ++ uid)).head? with
  | none => rfl
  | some hits => by_cases h : hits.isEmpty <;> simp [h]

/-- Every effect in the trace of cluster discovery is a vector-index query. -/
lemma findClustersGo_no_mutation (query : VectorIndexQuery) (tid uid : String)
    (mvAll : List (String × List ℚ)) :
    ∀ (rest : List (String × List ℚ)) (processed : List String) (e : Effect),
      e ∈ (findClustersGo query tid uid mvAll rest processed).2 →
      e.isRepoMutation = false
  | [], _, e => by
      intro he
      simp [findClustersGo] at he
  | (memoryId, vector) :: rest, processed, e => by
      intro he
      rw [findClustersGo] at he
      by_cases hmem : memoryId ∈ processed
      · rw [if_pos hmem] at he
        exact findClustersGo_no_mutation query tid uid mvAll rest processed e he
      · rw [if_neg hmem] at he
        simp only [findSimilarMemories_effects] at he
        by_cases hfs : (findSimilarMemories query vector tid uid
            (some CONSOLIDATION_THRESHOLD) (some memoryId)).1.isEmpty
        · rw [if_pos hfs] at he
          simp only [List.mem_append, findSimilarMemories_effects,
            List.mem_singleton] at he
          rcases he with rfl | he
          · rfl
          · exact findClustersGo_no_mutation query tid uid mvAll rest processed e he
        · rw [if_neg hfs] at he
          simp only [List.mem_append, findSimilarMemories_effects,
            List.mem_singleton] at he
          rcases he with rfl | he
          · rfl
          · exact findClustersGo_no_mutation query tid uid mvAll rest _ e he

/-- Every cluster emitted by `_find_memory_clusters` has at least two
members. -/
lemma findClustersGo_cluster_length (query : VectorIndexQuery) (tid uid : String)
    (mvAll : List (String × List ℚ)) :
    ∀ (rest : List (String × List ℚ)) (processed : List String)
      (c : List ClusterMember),
      c ∈ (findClustersGo query tid uid mvAll rest processed).1 → 2 ≤ c.length
  | [], _, c => by
      intro hc
      simp [findClustersGo] at hc
  | (memoryId, vector) :: rest, processed, c => by
      intro hc
      rw [findClustersGo] at hc
      by_cases hmem : memoryId ∈ processed
      · rw [if_pos hmem] at hc
        exact findClustersGo_cluster_length query tid uid mvAll rest processed c hc
      · rw [if_neg hmem] at hc
        by_cases hfs : (findSimilarMemories query vector tid uid
            (some CONSOLIDATION_THRESHOLD) (some memoryId)).1.isEmpty
        · rw [if_pos hfs] at hc
          exact findClustersGo_cluster_length query tid uid mvAll rest processed c hc
        · rw [if_neg hfs] at hc
          simp only at hc
          by_cases hlen : (addHitsToCluster mvAll (findSimilarMemories query vector tid uid
              (some CONSOLIDATION_THRESHOLD) (some memoryId)).1
              [⟨memoryId, vector⟩] (memoryId :: processed)).1.length > 1
          · rw [if_pos hlen] at hc
            rcases List.mem_cons.mp hc with rfl | hc
            · omega
            · exact findClustersGo_cluster_length query tid uid mvAll rest _ c hc
          · rw [if_neg hlen] at hc
            exact findClustersGo_cluster_length query tid uid mvAll rest _ c hc

/-- Consolidation performs no repository mutation whatsoever: its whole
effect trace consists of vector-index reads. -/
lemma consolidateMemories_no_mutation (query : VectorIndexQuery)
    (tid uid : String) (mv : List (String × List ℚ)) (dryRun : Bool)
    (e : Effect) (he : e ∈ (consolidateMemories query tid uid mv dryRun).2) :
    e.isRepoMutation = false := by
  rw [consolidateMemories] at he
  by_cases hmv : mv.isEmpty
  · rw [if_pos hmv] at he
    simp at he
  · rw [if_neg hmv] at he
    exact findClustersGo_no_mutation query tid uid mv mv [] e he

/-- A two-dimensional embedding vector shared by the example candidates. -/
def vecA : List ℚ := [1, 0]

/-- A metadata bag with no populated field. -/
def emptyMeta : HitMeta := ⟨none, none, none, none⟩

/-- Candidate map of two near-duplicate memories. -/
def exampleVectors2 : List (String × List ℚ) := [("01AAA", vecA), ("01BBB", vecA)]

/-- Vector-index response for the two-candidate example: both ids come back
with similarity 0.99, above the 0.97 consolidation threshold. -/
def exampleQuery2 : VectorIndexQuery := fun _ _ _ =>
  [[⟨"01AAA", mkRat 99 100, emptyMeta⟩, ⟨"01BBB", mkRat 99 100, emptyMeta⟩]]

/-- C2 fails on the code (code bug): a successful non-dry-run consolidation
performs no repository mutation at all (`_merge_memory_content` is a
placeholder), so the state feeding an immediately repeated run over the same
candidate set is unchanged and the repeated run — the same application —
again reports the same non-empty merge list instead of zero new merges. -/
theorem consolidation_not_idempotent :
    (consolidateMemories exampleQuery2 "t" "u" exampleVectors2 false).1.merged =
      [["01AAA", "01BBB"]] ∧
    (∀ e ∈ (consolidateMemories exampleQuery2 "t" "u" exampleVectors2 false).2,
      e.isRepoMutation = false) ∧
    (consolidateMemories exampleQuery2 "t" "u" exampleVectors2 false).1.merged ≠ [] := by
  refine ⟨by decide, ?_, by decide⟩
  intro e he
  exact consolidateMemories_no_mutation exampleQuery2 "t" "u" exampleVectors2 false e he

/-- Witness for `consolidation_not_idempotent` at the one concrete effect the
run produces. -/
theorem consolidation_not_idempotent_witness :
    (Effect.query [vecA] 50 "t:u").isRepoMutation = false :=
  consolidation_not_idempotent.2.1 (Effect.query [vecA] 50 "t:u") (by decide)

/-- C3 fails on the code (code bug): no engine call ever deactivates a source
record — the consolidation effect trace contains no repository mutation —
and the result reports the absorbed sources under the key `deleted`, not as
deactivations. -/
theorem consolidation_soft_delete_violation :
    (∀ (query : VectorIndexQuery) (tid uid : String)
      (mv : List (String × List ℚ)) (dryRun : Bool) (e : Effect),
      e ∈ (consolidateMemories query tid uid mv dryRun).2 →
      e.isRepoMutation = false) ∧
    (consolidateMemories exampleQuery2 "t" "u" exampleVectors2 false).1.deleted =
      ["01BBB"] ∧
    (consolidateMemories exampleQuery2 "t" "u" exampleVectors2 false).2.all
      (fun e => !e.isRepoMutation) = true := by
  exact ⟨fun query tid uid mv dryRun e he =>
    consolidateMemories_no_mutation query tid uid mv dryRun e he, by decide, by decide⟩

/-- Witness for `consolidation_soft_delete_violation` at a concrete effect. -/
theorem consolidation_soft_delete_violation_witness :
    (Effect.query [vecA] 50 "t:u").isRepoMutation = false :=
  consolidation_soft_delete_violation.1 exampleQuery2 "t" "u" exampleVectors2 false
    (Effect.query [vecA] 50 "t:u") (by decide)

/-- Candidate map of three near-duplicate memories, deliberately listed with
`01BBB` first so that the cluster needs sorting. -/
def exampleVectors3 : List (String × List ℚ) :=
  [("01BBB", vecA), ("01AAA", vecA), ("01CCC", vecA)]

/-- Vector-index response for the three-candidate example. -/
def exampleQuery3 : VectorIndexQuery := fun _ _ _ =>
  [[⟨"01AAA", mkRat 99 100, emptyMeta⟩, ⟨"01BBB", mkRat 99 100, emptyMeta⟩,
    ⟨"01CCC", mkRat 99 100, emptyMeta⟩]]

/-- C4: each surviving cluster is sorted ascending by id, its first element
becomes the merge target (reported under `updated`) and the remainder become
the sources (reported under `deleted`); clusters of size one are discarded
both by discovery and by the merge step; and for the cluster
`["01AAA", "01BBB", "01CCC"]` the target is `"01AAA"` with sources
`["01BBB", "01CCC"]`. -/
theorem consolidation_survivor_choice :
    (∀ cluster : List ClusterMember,
      (sortClusterByAge cluster).Sorted idLE ∧ List.Perm (sortClusterByAge cluster) cluster) ∧
    (∀ (t : ClusterMember) (ss : List ClusterMember), ss ≠ [] →
      mergeMemoryCluster (t :: ss) =
        some ⟨[(t :: ss).map (·.id)], ss.map (·.id), [t.id]⟩) ∧
    (∀ cluster : List ClusterMember, cluster.length < 2 →
      mergeMemoryCluster cluster = none) ∧
    (∀ (query : VectorIndexQuery) (tid uid : String)
      (mv : List (String × List ℚ)) (c : List ClusterMember),
      c ∈ (findMemoryClusters query tid uid mv).1 → 2 ≤ c.length) ∧
    (consolidateMemories exampleQuery3 "t" "u" exampleVectors3 false).1 =
      ⟨[["01AAA", "01BBB", "01CCC"]], ["01BBB", "01CCC"], ["01AAA"]⟩ := by
  refine ⟨fun cluster => ⟨List.sorted_insertionSort idLE cluster,
      List.perm_insertionSort idLE cluster⟩, ?_, ?_, ?_, by decide⟩
  · intro t ss hss
    have hss' : ss.length ≠ 0 := fun h => hss (List.eq_nil_of_length_eq_zero h)
    have hlen : ¬ (t :: ss).length < 2 := by
      simp only [List.length_cons]
      omega
    simp [mergeMemoryCluster, hlen, mergeMemoryContent]
    omega
  · intro cluster hlen
    cases cluster with
    | nil => rfl
    | cons t ss =>
        cases ss with
        | nil => rfl
        | cons a l =>
            simp only [List.length_cons] at hlen
            omega
  · intro query tid uid mv c hc
    exact findClustersGo_cluster_length query tid uid mv mv [] c hc

/-- Witness for `consolidation_survivor_choice` at a two-member cluster and a
singleton cluster. -/
theorem consolidation_survivor_choice_witness :
    mergeMemoryCluster [⟨"01AAA", vecA⟩, ⟨"01BBB", vecA⟩] =
      some ⟨[["01AAA", "01BBB"]], ["01BBB"], ["01AAA"]⟩ ∧
    mergeMemoryCluster [⟨"01AAA", vecA⟩] = none := by
  constructor
  · have h := consolidation_survivor_choice.2.1 ⟨"01AAA", vecA⟩ [⟨"01BBB", vecA⟩]
      (by decide)
    simpa using h
  · exact consolidation_survivor_choice.2.2.1 [⟨"01AAA", vecA⟩] (by decide)

/-! ## Forgetting claims -/

/-- The WHERE clause of `forget_user_memories`, spelled as the specification
spells it. -/
lemma forgetMatches_iff (cfg : ForgettingConfig) (now : ℚ) (tid : String)
    (uid : Option String) (m : Memory) :
    forgetMatches cfg now tid uid m = true ↔
      (m.active = true ∧ m.tenantId = tid ∧
        (uid = none ∨ uid = some "" ∨ uid = some m.userId) ∧
        m.importance < cfg.importanceThreshold ∧
        m.lastAccessedAt < now - cfg.forgettingDays) := by
  unfold forgetMatches userScopeMatches
  cases uid with
  | none =>
      simp only [Bool.and_eq_true, decide_eq_true_eq, beq_iff_eq]
      constructor
      · rintro ⟨⟨⟨⟨h1, h2⟩, h3⟩, h4⟩, -⟩
        exact ⟨h2, h1, Or.inl trivial, h3, h4⟩
      · rintro ⟨h2, h1, -, h3, h4⟩
        exact ⟨⟨⟨⟨h1, h2⟩, h3⟩, h4⟩, trivial⟩
  | some u =>
      by_cases hu : u = ""
      · subst hu
        simp only [Bool.and_eq_true, decide_eq_true_eq, beq_iff_eq,
          eq_self_iff_true, if_true]
        constructor
        · rintro ⟨⟨⟨⟨h1, h2⟩, h3⟩, h4⟩, -⟩
          exact ⟨h2, h1, Or.inr (Or.inl trivial), h3, h4⟩
        · rintro ⟨h2, h1, -, h3, h4⟩
          exact ⟨⟨⟨⟨h1, h2⟩, h3⟩, h4⟩, trivial⟩
      · simp only [Bool.and_eq_true, decide_eq_true_eq, beq_iff_eq, if_neg hu]
        constructor
        · rintro ⟨⟨⟨⟨h1, h2⟩, h3⟩, h4⟩, h5⟩
          exact ⟨h2, h1, Or.inr (Or.inr (by rw [h5])), h3, h4⟩
        · rintro ⟨h2, h1, hsc, h3, h4⟩
          refine ⟨⟨⟨⟨h1, h2⟩, h3⟩, h4⟩, ?_⟩
          rcases hsc with h | h | h
          · cases h
          · exact absurd (Option.some_injective _ h) hu
          · exact (Option.some_injective _ h).symm

/-- Under unique ids, a record id occurs among the ids of the filtered rows
exactly when the record itself passes the filter. -/
lemma mem_filter_map_id {p : Memory → Bool} {db : List Memory} {m : Memory}
    (hnd : (db.map (·.id)).Nodup) (hm : m ∈ db) :
    m.id ∈ (db.filter p).map (·.id) ↔ p m = true := by
  constructor
  · intro h
    obtain ⟨m', hm', hid⟩ := List.mem_map.mp h
    obtain ⟨hm'db, hp⟩ := List.mem_filter.mp hm'
    have heq : m' = m := List.inj_on_of_nodup_map hnd hm'db hm hid
    rwa [← heq]
  · intro hp
    exact List.mem_map.mpr ⟨m, List.mem_filter.mpr ⟨hm, hp⟩, rfl⟩

/-- C5: when ids are unique, `forget_user_memories` deactivates exactly the
active records of the scope satisfying both `importance < threshold` and
`lastAccessedAt < now − staleDays`, touching `updated_at` on those records
and leaving every other record untouched. -/
theorem forgetting_conjunction (cfg : ForgettingConfig) (db : List Memory)
    (now : ℚ) (tid : String) (uid : Option String)
    (hnd : (db.map (·.id)).Nodup) :
    (forgetUserMemories cfg db now tid uid).1 = db.map (fun m =>
      if m.active = true ∧ m.tenantId = tid ∧
          (uid = none ∨ uid = some "" ∨ uid = some m.userId) ∧
          m.importance < cfg.importanceThreshold ∧
          m.lastAccessedAt < now - cfg.forgettingDays
        then { m with active := false, updatedAt := now } else m) := by
  unfold forgetUserMemories
  by_cases hemp : (db.filter (forgetMatches cfg now tid uid)).isEmpty
  · rw [if_pos hemp]
    rw [List.isEmpty_iff] at hemp
    have hnone : ∀ m ∈ db, forgetMatches cfg now tid uid m = false := by
      intro m hm
      by_contra hne
      have htrue : forgetMatches cfg now tid uid m = true :=
        eq_true_of_ne_false hne
      have : m ∈ db.filter (forgetMatches cfg now tid uid) :=
        List.mem_filter.mpr ⟨hm, htrue⟩
      rw [hemp] at this
      cases this
    have : db.map (fun m =>
        if m.active = true ∧ m.tenantId = tid ∧
            (uid = none ∨ uid = some "" ∨ uid = some m.userId) ∧
            m.importance < cfg.importanceThreshold ∧
            m.lastAccessedAt < now - cfg.forgettingDays
          then { m with active := false, updatedAt := now } else m) =
        db.map id := by
      apply List.map_congr_left
      intro m hm
      rw [if_neg]
      · rfl
      · intro hc
        have := (forgetMatches_iff cfg now tid uid m).mpr hc
        rw [hnone m hm] at this
        cases this
    rw [this, List.map_id]
  · rw [if_neg hemp]
    apply List.map_congr_left
    intro m hm
    by_cases hp : forgetMatches cfg now tid uid m = true
    · rw [if_pos, if_pos]
      · exact (forgetMatches_iff cfg now tid uid m).mp hp
      · exact List.elem_eq_true_of_mem ((mem_filter_map_id hnd hm).mpr hp)
    · have hp' : forgetMatches cfg now tid uid m = false :=
        Bool.eq_false_iff.mpr hp
      rw [if_neg, if_neg]
      · intro hc
        have := (forgetMatches_iff cfg now tid uid m).mpr hc
        rw [hp'] at this
        cases this
      · intro hc
        have := (mem_filter_map_id hnd hm).mp (List.mem_of_elem_eq_true hc)
        rw [hp'] at this
        cases this

/-- A record with importance 0.1 but accessed right now. -/
def memLowImportanceFresh : Memory :=
  ⟨"f1", "t", "u", 1/10, 0, 1000, 0, true, "text"⟩

/-- A record with importance 0.8 last accessed 1000 days ago. -/
def memHighImportanceStale : Memory :=
  ⟨"f2", "t", "u", 8/10, 0, 0, 0, true, "text"⟩

/-- A record that is both unimportant and stale. -/
def memLowImportanceStale : Memory :=
  ⟨"f3", "t", "u", 1/10, 0, 0, 0, true, "text"⟩

/-- The fresh low-importance record fails the staleness condition. -/
lemma matches_fresh_false :
    forgetMatches defaultForgettingConfig 1000 "t" none memLowImportanceFresh = false := by
  apply Bool.eq_false_iff.mpr
  intro h
  obtain ⟨-, -, -, -, h5⟩ := (forgetMatches_iff _ _ _ _ _).mp h
  norm_num [memLowImportanceFresh, defaultForgettingConfig] at h5

/-- The stale high-importance record fails the importance condition. -/
lemma matches_stale_high_false :
    forgetMatches defaultForgettingConfig 1000 "t" none memHighImportanceStale = false := by
  apply Bool.eq_false_iff.mpr
  intro h
  obtain ⟨-, -, -, h4, -⟩ := (forgetMatches_iff _ _ _ _ _).mp h
  norm_num [memHighImportanceStale, defaultForgettingConfig] at h4

/-- The record that is both unimportant and stale passes the filter. -/
lemma matches_both_true :
    forgetMatches defaultForgettingConfig 1000 "t" none memLowImportanceStale = true :=
  (forgetMatches_iff _ _ _ _ _).mpr
    ⟨rfl, rfl, Or.inl rfl,
      by norm_num [memLowImportanceStale, defaultForgettingConfig],
      by norm_num [memLowImportanceStale, defaultForgettingConfig]⟩

/-- The both-conditions record also matches the retention sweep. -/
lemma old_matches_true :
    forgetOldMatches 1000 defaultForgettingConfig.memoryRetentionDays "t"
      memLowImportanceStale = true := by
  simp only [forgetOldMatches, Bool.and_eq_true, decide_eq_true_eq, beq_iff_eq]
  refine ⟨⟨rfl, rfl⟩, ?_⟩
  norm_num [memLowImportanceStale, defaultForgettingConfig]

/-- Concrete value of the low-value filter on the three-record store. -/
lemma filter_example3 :
    [memLowImportanceFresh, memHighImportanceStale, memLowImportanceStale].filter
      (forgetMatches defaultForgettingConfig 1000 "t" none) =
      [memLowImportanceStale] := by
  simp [List.filter_cons, matches_fresh_false, matches_stale_high_false,
    matches_both_true]

/-- Concrete value of the low-value filter on the single-record store. -/
lemma filter_example1 :
    [memLowImportanceStale].filter
      (forgetMatches defaultForgettingConfig 1000 "t" none) =
      [memLowImportanceStale] := by
  simp [List.filter_cons, matches_both_true]

/-- Concrete value of the retention filter on the single-record store. -/
lemma filter_example1_old :
    [memLowImportanceStale].filter
      (forgetOldMatches 1000
        ((none : Option ℚ).getD defaultForgettingConfig.memoryRetentionDays) "t") =
      [memLowImportanceStale] := by
  simp [List.filter_cons, Option.getD, old_matches_true]

/-- Witness for `forgetting_conjunction`: with the default thresholds at
`now = 1000`, the low-importance-but-fresh record and the stale-but-important
record stay active and only the record satisfying both conditions is
deactivated. -/
theorem forgetting_conjunction_witness :
    (forgetUserMemories defaultForgettingConfig
        [memLowImportanceFresh, memHighImportanceStale, memLowImportanceStale]
        1000 "t" none).1 =
      [memLowImportanceFresh, memHighImportanceStale, memLowImportanceStale].map
        (fun m =>
          if m.active = true ∧ m.tenantId = "t" ∧
              ((none : Option String) = none ∨ (none : Option String) = some "" ∨
                (none : Option String) = some m.userId) ∧
              m.importance < defaultForgettingConfig.importanceThreshold ∧
              m.lastAccessedAt < 1000 - defaultForgettingConfig.forgettingDays
            then { m with active := false, updatedAt := 1000 } else m) ∧
    (forgetUserMemories defaultForgettingConfig
        [memLowImportanceFresh, memHighImportanceStale, memLowImportanceStale]
        1000 "t" none).1.map (fun m => (m.id, m.active)) =
      [("f1", true), ("f2", true), ("f3", false)] :=
  ⟨forgetting_conjunction defaultForgettingConfig
      [memLowImportanceFresh, memHighImportanceStale, memLowImportanceStale]
      1000 "t" none (by decide), by
    simp only [forgetUserMemories, filter_example3]
    decide⟩

/-- C10: whenever a sweep deactivates `n ≥ 1` records, the returned count is
`n` but the reported id list is only the first `min(n, 10)` deactivated ids,
while every matching record really is deactivated in the store. -/
theorem forgetting_report_truncation (cfg : ForgettingConfig) (db : List Memory)
    (now : ℚ) (tid : String) (uid : Option String) (rd : Option ℚ)
    (h1 : ¬ (db.filter (forgetMatches cfg now tid uid)).isEmpty)
    (h2 : ¬ (db.filter
      (forgetOldMatches now (rd.getD cfg.memoryRetentionDays) tid)).isEmpty) :
    ((forgetUserMemories cfg db now tid uid).2.memoriesForgotten =
        (db.filter (forgetMatches cfg now tid uid)).length ∧
      (forgetUserMemories cfg db now tid uid).2.memoryIds =
        some (((db.filter (forgetMatches cfg now tid uid)).map (·.id)).take 10) ∧
      ((forgetUserMemories cfg db now tid uid).2.memoryIds.getD []).length =
        min 10 (db.filter (forgetMatches cfg now tid uid)).length ∧
      ∀ m ∈ db.filter (forgetMatches cfg now tid uid),
        ∃ m' ∈ (forgetUserMemories cfg db now tid uid).1,
          m'.id = m.id ∧ m'.active = false) ∧
    ((forgetOldMemories cfg db now tid rd).2.memoriesForgotten =
        (db.filter (forgetOldMatches now (rd.getD cfg.memoryRetentionDays) tid)).length ∧
      (forgetOldMemories cfg db now tid rd).2.memoryIds =
        some (((db.filter
          (forgetOldMatches now (rd.getD cfg.memoryRetentionDays) tid)).map (·.id)).take 10)) := by
  constructor
  · unfold forgetUserMemories
    rw [if_neg h1]
    refine ⟨rfl, rfl, ?_, ?_⟩
    · simp [List.length_take]
    · intro m hm
      refine ⟨{ m with active := false, updatedAt := now }, ?_, rfl, rfl⟩
      apply List.mem_map.mpr
      refine ⟨m, List.mem_filter.mp hm |>.1, ?_⟩
      rw [if_pos (List.elem_eq_true_of_mem (List.mem_map.mpr ⟨m, hm, rfl⟩))]
  · unfold forgetOldMemories
    rw [if_neg h2]
    exact ⟨rfl, rfl⟩

/-- Witness for `forgetting_report_truncation` at a concrete store where one
record matches both sweeps. -/
theorem forgetting_report_truncation_witness :
    (forgetUserMemories defaultForgettingConfig [memLowImportanceStale]
        1000 "t" none).2.memoriesForgotten = 1 ∧
    (forgetUserMemories defaultForgettingConfig [memLowImportanceStale]
        1000 "t" none).2.memoryIds = some ["f3"] ∧
    (forgetOldMemories defaultForgettingConfig [memLowImportanceStale]
        1000 "t" none).2.memoriesForgotten = 1 := by
  have h := forgetting_report_truncation defaultForgettingConfig
    [memLowImportanceStale] 1000 "t" none none
    (by rw [filter_example1]; decide) (by rw [filter_example1_old]; decide)
  refine ⟨?_, ?_, ?_⟩
  · rw [h.1.1, filter_example1]
    rfl
  · rw [h.1.2.1, filter_example1]
    rfl
  · rw [h.2.1, filter_example1_old]
    rfl

/-- C8 fails on the code (code bug): `analyze_memory_health` can never return
the promised statistics, because after the four read-only counting queries it
evaluates `func.avg(...)` while the module imports only `and_` and `desc`
from sqlalchemy, so every call raises `NameError: name 'func' is not
defined`; nothing in the store is mutated before the failure point. -/
theorem analyze_health_name_error (cfg : ForgettingConfig) (db : List Memory)
    (now : ℚ) (tid : String) (uid : Option String) :
    analyzeMemoryHealth cfg db now tid uid =
      Except.error (PyError.nameError "func") := rfl

/-! ## Input-validation claim -/

/-- C9 (amended): the engines perform no input validation at all — Rank and
FindSimilar issue their vector-index query for every input, including an
empty query vector or an arbitrary (even out-of-range) threshold — and the
only pre-I/O short-circuit is Consolidate returning an empty result for an
empty candidate map. -/
theorem no_input_validation (cfg : RankConfig) (query : VectorIndexQuery)
    (qv : List ℚ) (tid uid : String) (topK : Option Nat) (vec : List ℚ)
    (thr : Option ℚ) (ex : Option String) (dryRun : Bool) :
    (retrieveMemories cfg query qv tid uid topK).2 =
      [Effect.query [qv]
        ((match topK with | none => 6 | some n => if n = 0 then 6 else n) * 2)
        (tid ++ ":" ++ uid)] ∧
    (findSimilarMemories query vec tid uid thr ex).2 =
      [Effect.query [vec] 50 (tid ++ ":" ++ uid)] ∧
    consolidateMemories query tid uid [] dryRun = (⟨[], [], []⟩, []) := by
  refine ⟨?_, findSimilarMemories_effects query vec tid uid thr ex, rfl⟩
  simp only [retrieveMemories]
  cases (query [qv]
      ((match topK with | none => 6 | some n => if n = 0 then 6 else n) * 2)
      (tid ++ ":" ++ uid)).head? with
  | none => rfl
  | some hits => by_cases h : hits.isEmpty <;> simp [h]

/-- A vector index with an empty response. -/
def emptyResponseQuery : VectorIndexQuery := fun _ _ _ => []

/-- C9 as written fails on the code: an empty query vector and an
out-of-range similarity threshold (1.5) are not rejected — both calls reach
the Similarity Provider, as their effect traces show. -/
theorem invalid_input_reaches_provider :
    (retrieveMemories defaultRankConfig emptyResponseQuery [] "t" "u" (some 1)).2 =
      [Effect.query [[]] 2 "t:u"] ∧
    (findSimilarMemories emptyResponseQuery [] "t" "u" (some (mkRat 3 2)) none).2 =
      [Effect.query [[]] 50 "t:u"] := by
  constructor
  · rfl
  · rfl

end Engram
